import Mathlib

/-!
# Verification of the `brood` multi-process supervisor

Shallow embedding of the parts of `brood` (a Python asyncio multi-process
supervisor) that the specification's claims are about, together with proofs
settling each claim.

Conventions of the embedding:
* Python enums become Lean inductive types; enum-member comparison (`is`/`==`
  on members) becomes value equality.
* Optional values (`Optional[T]`, fields that may be `None`) become `Option`.
* Python sets of strings become `Finset String`.
* Stateful methods become explicit state-passing functions that also return
  the observable effects (published messages, signals sent, events emitted).
* Python attribute access on an object that may lack the attribute is
  modelled as an `Option`-valued lookup (`none` = `AttributeError`).
* The cooperative asyncio scheduling of one command's tasks is modelled as a
  small-step interleaving relation (`Brood.Exec` below).
-/

namespace Brood

/-! ## message.py -/

/-- `Verbosity` from `message.py`: a `str` enum with a total order
`DEBUG < INFO < WARNING < ERROR` given by `__int__`/`__lt__`. -/
inductive Verbosity
  | debug
  | info
  | warning
  | error
deriving DecidableEq, Repr

/-- `Verbosity.__int__` from `message.py`. -/
def Verbosity.toInt : Verbosity → Nat
  | .debug => 0
  | .info => 1
  | .warning => 2
  | .error => 3

/-- `Verbosity.__lt__` from `message.py`: comparison of the `__int__` images. -/
def Verbosity.lt (a b : Verbosity) : Bool :=
  a.toInt < b.toInt

/-- `<=` on `Verbosity` as derived by `functools.total_ordering` from
`__lt__` and `__eq__`: `a <= b` iff `a < b` or `a == b`. -/
def Verbosity.le (a b : Verbosity) : Bool :=
  Verbosity.lt a b || a == b

/-! ## config.py : starter configurations and command configurations -/

/-- The `command` / `shutdown` fields of `CommandConfig` in `config.py` have
pydantic type `Union[str, List[str]]`. -/
inductive StrOrList
  | str (s : String)
  | list (l : List String)
deriving DecidableEq, Repr

/-- The four starter configuration classes of `config.py`
(`OnceConfig`, `RestartConfig`, `WatchConfig`, `AfterConfig`) as a tagged
variant.  Field defaults in the source: `RestartConfig.delay = 2`,
`WatchConfig.poll = False`, `WatchConfig.allow_multiple = False`. -/
inductive StarterConfig
  | once
  | restart (delay : ℚ)
  | watch (paths : List String) (poll : Bool) (allow_multiple : Bool)
  | after (after : List String)
deriving DecidableEq, Repr

/-- The `type` tag (`Literal[...]` field) of each starter configuration class
in `config.py`. -/
def StarterConfig.typeTag : StarterConfig → String
  | .once => "once"
  | .restart _ => "restart"
  | .watch _ _ _ => "watch"
  | .after _ => "after"

/-- Python attribute lookup of `restart_on_exit` on a starter configuration
object.  None of the four starter configuration classes in `config.py`
declares a field named `restart_on_exit`, so the lookup fails
(`AttributeError`, modelled as `none`) for every starter. -/
def StarterConfig.restartOnExitAttr : StarterConfig → Option Bool
  | _ => none

/-- `CommandConfig` from `config.py`.  The display fields `prefix` and
`prefix_style` of the source are named `pfx` and `pfx_style` here. -/
structure CommandConfig where
  name : String
  command : StrOrList
  shutdown : Option StrOrList := none
  pfx : Option String := none
  pfx_style : Option String := none
  starter : StarterConfig := .restart 2
deriving DecidableEq, Repr

/-- `CommandConfig.command_string` from `config.py`: a list command is joined
by `shlex.join` (modelled as space-joining, quoting is irrelevant to every
claim), a string command is returned as-is. -/
def CommandConfig.command_string (c : CommandConfig) : String :=
  match c.command with
  | .list l => String.intercalate " " l
  | .str s => s

/-- `CommandConfig.shutdown_config` from `config.py`: `None` when `shutdown`
is `None`, otherwise a copy of the config with `command := shutdown` and
`starter := OnceConfig()` (all other fields unchanged, as `pydantic.copy`
with an `update` dict keeps them). -/
def CommandConfig.shutdown_config (c : CommandConfig) : Option CommandConfig :=
  match c.shutdown with
  | none => none
  | some sd => some { c with command := sd, starter := .once }

/-- `FailureMode` from `config.py`. -/
inductive FailureMode
  | continue_
  | kill_others
deriving DecidableEq, Repr

/-- `BroodConfig.FORMATS` from `config.py`: the recognized config file
formats. -/
def FORMATS : List String := ["json", "toml", "yaml"]

/-- `BroodConfig` from `config.py` (the `renderer` field is irrelevant to
every claim and is omitted). -/
structure BroodConfig where
  failure_mode : FailureMode := .continue_
  commands : List CommandConfig := []
deriving DecidableEq, Repr

/-! ## event.py -/

/-- `EventType` from `event.py`. -/
inductive EventType
  | started
  | stopped
deriving DecidableEq, Repr

/-- The observable state of the `Command` a published `Event` points at, as
read by the starters and the supervisor: its config and its exit code
(`process.returncode`, `None` while running). -/
structure CommandView where
  config : CommandConfig
  exit_code : Option Int
deriving DecidableEq, Repr

/-- `Event` from `event.py`: a command plus an event type. -/
structure Event where
  command : CommandView
  type : EventType
deriving DecidableEq, Repr

/-! ## config.py : starter state machines -/

/-- `AfterStarter` from `config.py`: waits until every name in `waiting_for`
has produced a successful stop. -/
structure AfterStarter where
  waiting_for : Finset String
  done : Finset String := ∅
deriving DecidableEq

/-- `AfterStarter.can_start` from `config.py`: `waiting_for.issubset(done)`. -/
def AfterStarter.can_start (s : AfterStarter) : Bool :=
  s.waiting_for ⊆ s.done

/-- `AfterStarter.was_started` from `config.py`: `done.clear()`. -/
def AfterStarter.was_started (s : AfterStarter) : AfterStarter :=
  { s with done := ∅ }

/-- `AfterStarter.handle_event` from `config.py`: add the event's command
name to `done` iff the event is `Stopped` and the command's exit code
equals `0` (in Python `None == 0` is false, so a still-running command never
matches). -/
def AfterStarter.handle_event (e : Event) (s : AfterStarter) : AfterStarter :=
  if e.type = .stopped ∧ e.command.exit_code = some 0 then
    { s with done := insert e.command.config.name s.done }
  else
    s

/-- `OnceStarter` / `RestartStarter` from `config.py` (they are identical):
`can_start` is true until `was_started` sets `has_started`. -/
structure OnceStarter where
  has_started : Bool := false
deriving DecidableEq, Repr

/-- `OnceStarter.can_start` from `config.py`. -/
def OnceStarter.can_start (s : OnceStarter) : Bool :=
  !s.has_started

/-- `OnceStarter.was_started` from `config.py`. -/
def OnceStarter.was_started (s : OnceStarter) : OnceStarter :=
  { s with has_started := true }

/-! ## command.py : terminate / kill

`Command.terminate` and `Command.kill` (command.py lines 110-138) both
check `has_exited` first and return immediately if the process has exited;
otherwise they set `was_killed := True`, publish one Info internal message,
and send a signal (SIGTERM resp. SIGKILL) to the process group of the child
(`os.killpg(os.getpgid(pid), sig)`). -/

/-- The POSIX signals the supervisor sends. -/
inductive Sig
  | sigterm
  | sigkill
deriving DecidableEq, Repr

/-- The mutable state of a `Command` that `terminate`/`kill` read and write:
whether the child process has exited (`process.returncode is not None`) and
the `was_killed` flag. -/
structure CommandState where
  has_exited : Bool
  was_killed : Bool
deriving DecidableEq, Repr

/-- The observable effects of one `terminate`/`kill` call: internal messages
published (each with its verbosity) and signals sent to the child's process
group. -/
structure KillEffects where
  msgs : List (String × Verbosity)
  sigs : List Sig
deriving DecidableEq, Repr

/-- `Command.terminate` from `command.py`: no-op if `has_exited`; otherwise
set `was_killed`, publish one Info message, send SIGTERM to the process
group. -/
def Command.terminate (cfg : CommandConfig) (s : CommandState) :
    CommandState × KillEffects :=
  if s.has_exited then
    (s, ⟨[], []⟩)
  else
    ({ s with was_killed := true },
      ⟨[(s!"Terminating command: {cfg.command_string}", .info)], [.sigterm]⟩)

/-- `Command.kill` from `command.py`: no-op if `has_exited`; otherwise set
`was_killed`, publish one Info message, send SIGKILL to the process
group. -/
def Command.kill (cfg : CommandConfig) (s : CommandState) :
    CommandState × KillEffects :=
  if s.has_exited then
    (s, ⟨[], []⟩)
  else
    ({ s with was_killed := true },
      ⟨[(s!"Killing command: {cfg.command_string}", .info)], [.sigkill]⟩)

/-- The child process exiting (observed as `process.returncode` becoming
set); the only writer is the operating system / the command's waiter task. -/
def CommandState.exit (s : CommandState) : CommandState :=
  { s with has_exited := true }

/-! ## command.py : the output reader -/

/-- Python `str.rstrip()` whitespace test (space, tab, newline, carriage
return, vertical tab, form feed). -/
def isPyWhitespace (c : Char) : Bool :=
  c = ' ' || c = '\t' || c = '\n' || c = '\r' || c = '\x0b' || c = '\x0c'

/-- Python `str.rstrip()`: drop trailing whitespace characters. -/
def pyRstrip (s : String) : String :=
  ⟨(s.data.reverse.dropWhile isPyWhitespace).reverse⟩

/-- `CommandMessage` from `message.py` (the timestamp is irrelevant to every
claim and is omitted). -/
structure CommandMessage where
  text : String
  command_config : CommandConfig
deriving DecidableEq, Repr

/-- `Command.read_output` from `command.py`: repeatedly `readline` from the
child's combined stdout; the input `stream` is the sequence of strings
`readline` returns, where `""` is the EOF result.  Stop at the first empty
line (EOF); for every line before that publish one `CommandMessage` whose
text is the line with trailing whitespace stripped and whose config is the
command's config. -/
def Command.read_output (cfg : CommandConfig) : List String → List CommandMessage
  | [] => []
  | line :: rest =>
    if line = "" then []
    else ⟨pyRstrip line, cfg⟩ :: Command.read_output cfg rest

/-! ## renderer.py : message delivery -/

/-- A message on the messages fanout, as `renderer.py` discriminates it with
`isinstance`: an `InternalMessage` (with a verbosity) or a `CommandMessage`. -/
inductive MessageE
  | internal (text : String) (verbosity : Verbosity)
  | command (text : String) (command_config : CommandConfig)
deriving DecidableEq, Repr

/-- What `Renderer.handle_messages` does with one message: deliver it to the
internal-message display handler, deliver it to the command-message display
handler, or silently discard it. -/
inductive Delivery
  | internal (text : String) (verbosity : Verbosity)
  | command (text : String) (command_config : CommandConfig)
deriving DecidableEq, Repr

/-- One iteration of `Renderer.handle_messages` from `renderer.py`: an
`InternalMessage` is passed to `handle_internal_message` iff
`message.verbosity <= self.verbosity`; a `CommandMessage` is always passed
to `handle_command_message`. -/
def Renderer.handle_message (self_verbosity : Verbosity) :
    MessageE → Option Delivery
  | .internal t v =>
    if Verbosity.le v self_verbosity then some (.internal t v) else none
  | .command t cfg => some (.command t cfg)

/-! ## monitor.py : the event handler (`Monitor.handle_managers`) -/

/-- A Python value held in `BroodConfig.failure_mode` at runtime: either a
`FailureMode` enum member object, or a plain `str` (the member's value). -/
inductive PyFailureMode
  | member (m : FailureMode)
  | strValue (s : String)
deriving DecidableEq, Repr

/-- The test `self.config.failure_mode is FailureMode.KILL_OTHERS` from
`monitor.py` line 123: Python object identity against the enum member.  A
plain `str`, even `"kill_others"`, is a different object from the member,
so only the member itself passes. -/
def PyFailureMode.isKillOthers : PyFailureMode → Bool
  | .member .kill_others => true
  | _ => false

/-- What pydantic stores in `BroodConfig.failure_mode` for a validated
config: `use_enum_values = True` (config.py lines 22-25 on `BaseConfig` and
again lines 184-185 on `BroodConfig`) makes pydantic v1 populate the field
with the enum member's `value` — the plain `str` — not the member. -/
def storedFailureMode : FailureMode → PyFailureMode
  | .continue_ => .strValue "continue"
  | .kill_others => .strValue "kill_others"

/-- The view of a stopped command that `Monitor.handle_managers` reads:
its config, its exit code and its `was_killed` flag. -/
structure ManagerView where
  command_config : CommandConfig
  exit_code : Option Int
  was_killed : Bool
deriving DecidableEq, Repr

/-- How one `Stopped` event ends inside `Monitor.handle_managers`. -/
inductive StopOutcome
  /-- `raise KillOthers(event.manager)` -/
  | killOthers
  /-- `await self.start_command(command_config=..., delay=True)` -/
  | restarted
  /-- attribute lookup `starter.restart_on_exit` failed (`AttributeError`) -/
  | attributeError
  /-- fall through to the next loop iteration without raising or restarting -/
  | ok
deriving DecidableEq, Repr

/-- The `Stopped` branch of `Monitor.handle_managers` (monitor.py lines
113-134): remove the stopped manager from `self.managers`, publish an
"exited" internal message, raise `KillOthers` when
`self.config.failure_mode is FailureMode.KILL_OTHERS` (Python identity
against the enum member) and the exit code is nonzero and the command was
not killed, and otherwise consult `starter.type` /
`starter.restart_on_exit` to decide whether to restart. -/
def Monitor.handle_stopped (fm : PyFailureMode) (managers : List ManagerView)
    (m : ManagerView) : List ManagerView × List String × StopOutcome :=
  (managers.erase m,
   [s!"Command exited with code ?: {m.command_config.command_string}"],
   if fm.isKillOthers = true ∧ m.exit_code ≠ some 0 ∧ m.was_killed = false then
     .killOthers
   else if m.command_config.starter.typeTag = "restart" then
     match m.command_config.starter.restartOnExitAttr with
     | some true => .restarted
     | some false => .ok
     | none => .attributeError
   else .ok)

/-! ## monitor.py : the file-event handler (`Monitor.handle_watchers`) -/

/-- A watchdog `FileSystemEvent` as `handle_watchers` reads it (`src_path`
and `event_type`). -/
structure FsEvent where
  src_path : String
  event_type : String
deriving DecidableEq, Repr

/-- One entry of `Monitor.managers`: a live command manager, identified by a
spawn id (distinct per `start_command` call, standing in for Python object
identity) and carrying its config. -/
structure Manager where
  id : Nat
  command_config : CommandConfig
deriving DecidableEq, Repr

/-- The test `config.starter.type == "watch" and not
config.starter.allow_multiple` from `handle_watchers`. -/
def watchNoMulti (c : CommandConfig) : Bool :=
  match c.starter with
  | .watch _ _ allow_multiple => !allow_multiple
  | _ => false

/-- One assignment `starts[config] = event` into the Python dict `starts`:
if the config is already a key, its value is replaced in place; otherwise
the pair is appended (dict insertion order). -/
def dictInsert (acc : List (CommandConfig × FsEvent)) (c : CommandConfig)
    (e : FsEvent) : List (CommandConfig × FsEvent) :=
  match acc with
  | [] => [(c, e)]
  | (c', e') :: rest =>
    if c' = c then (c', e) :: rest else (c', e') :: dictInsert rest c e

/-- The dict `starts` built by the `for config, event in await
drain_queue(queue, buffer=1)` loop of `handle_watchers`: one entry per
distinct config of the drained window, keeping the most recent event. -/
def windowStarts (drained : List (CommandConfig × FsEvent)) :
    List (CommandConfig × FsEvent) :=
  drained.foldl (fun acc p => dictInsert acc p.1 p.2) []

/-- The set `stops` built by the same loop: every currently-live manager
whose config is a no-multiple watch config occurring in the drained
window (`manager.command_config is config`, with object identity modelled
as config equality since both sides come from `self.config.commands`). -/
def windowStops (drained : List (CommandConfig × FsEvent))
    (managers : List Manager) : List Manager :=
  managers.filter fun m =>
    drained.any fun p => watchNoMulti p.1 && p.1 == m.command_config

/-- The actions `handle_watchers` performs for one drained window, in
program order. -/
inductive WatchAction
  /-- `stop.terminate()` for one member of `stops` -/
  | terminate (m : Manager)
  /-- the `Path ... was ..., starting command: ...` internal message -/
  | message (text : String)
  /-- `self.start_command(command_config=config)` -/
  | start (c : CommandConfig)
deriving DecidableEq, Repr

/-- One iteration of the `while True` loop of `Monitor.handle_watchers`
(monitor.py lines 148-175): first terminate every member of `stops`, then
publish one message per `starts` entry, then start one new command per
`starts` entry. -/
def Monitor.handle_watchers_window (drained : List (CommandConfig × FsEvent))
    (managers : List Manager) : List WatchAction :=
  (windowStops drained managers).map .terminate
    ++ (windowStarts drained).map (fun p =>
        .message s!"Path {p.2.src_path} was {p.2.event_type}, starting command: {p.1.command_string}")
    ++ (windowStarts drained).map (fun p => .start p.1)

/-- The live managers that were not terminated by the window (the members of
`stops` received SIGTERM and are no longer live once they exit; the
`Stopped` handler removes them from `self.managers`). -/
def windowSurvivors (drained : List (CommandConfig × FsEvent))
    (managers : List Manager) : List Manager :=
  managers.filter fun m =>
    !(drained.any fun p => watchNoMulti p.1 && p.1 == m.command_config)

/-- A sample no-multiple watch command config, used in concrete
evaluations. -/
def sampleWatchConfig : CommandConfig :=
  { name := "w", command := StrOrList.str "echo x",
    starter := StarterConfig.watch ["/tmp/t"] false false }

/-- A sample live manager running `sampleWatchConfig`. -/
def sampleWatchManager : Manager := ⟨0, sampleWatchConfig⟩

/-- A sample filesystem event. -/
def sampleFsEvent : FsEvent := ⟨"/tmp/t/f", "modified"⟩

/-- The key list (config components, in insertion order) of the dict
modelled by an association list. -/
def dictKeys (l : List (CommandConfig × FsEvent)) : List CommandConfig :=
  l.map Prod.fst

/-- The configs a window's action list starts, in order. -/
def startsOf (l : List WatchAction) : List CommandConfig :=
  l.filterMap fun a =>
    match a with
    | .start c => some c
    | _ => none

/-! ## monitor.py : the shutdown protocol (`Monitor.__aexit__`) -/

/-- The steps of the shutdown protocol, abstracted from
`Monitor.__aexit__` / `terminate` / `wait` / `shutdown` (monitor.py lines
180-236).  The internal messages published along the way are omitted; only
lifecycle steps appear. -/
inductive ShutdownStep
  /-- `manager.terminate()`: SIGTERM to the live command's process group -/
  | terminateCmd (c : CommandConfig)
  /-- `watcher.stop()` -/
  | stopWatcher (w : Nat)
  /-- `manager.wait()`: await the command's exit -/
  | waitCmd (c : CommandConfig)
  /-- `watcher.join()` -/
  | joinWatcher (w : Nat)
  /-- `self.start_command(command)` for a shutdown command -/
  | startCmd (c : CommandConfig)
  /-- `self.renderer.run(drain=True)` -/
  | rendererDrain
  /-- `self.renderer.unmount()` -/
  | unmount
deriving DecidableEq, Repr

/-- `Monitor.terminate` (monitor.py lines 209-213): terminate every live
manager, then stop every watcher. -/
def Monitor.terminate_trace (managers : List CommandConfig)
    (watchers : List Nat) : List ShutdownStep :=
  managers.map .terminateCmd ++ watchers.map .stopWatcher

/-- `Monitor.wait` (monitor.py lines 215-227): wait for every live manager
(each is removed and an "exited" message published), then join every
watcher. -/
def Monitor.wait_trace (managers : List CommandConfig)
    (watchers : List Nat) : List ShutdownStep :=
  managers.map .waitCmd ++ watchers.map .joinWatcher

/-- Python truthiness of the `Optional[Union[str, List[str]]]` value of a
`shutdown` field: `None`, the empty string and the empty list are falsy. -/
def pyTruthy : Option StrOrList → Bool
  | none => false
  | some (.str s) => !(s == "")
  | some (.list l) => !l.isEmpty

/-- `Monitor.shutdown` (monitor.py lines 229-236): the list of synthesized
shutdown commands, `command.copy(update={"command": command.shutdown,
"starter": OnceConfig()})` for every config selected by the truthiness
filter `if command.shutdown` — which excludes not only `None` but also an
empty shutdown string or list (unlike `CommandConfig.shutdown_config`,
which tests only for `None`). -/
def Monitor.shutdown_commands (cfg : BroodConfig) : List CommandConfig :=
  cfg.commands.filterMap fun c =>
    if pyTruthy c.shutdown then
      match c.shutdown with
      | some sd => some { c with command := sd, starter := .once }
      | none => none
    else none

/-- `Monitor.__aexit__` (monitor.py lines 180-207): terminate, drain the
renderer, wait, drain, start the shutdown commands, drain, wait again (the
live managers at that point are exactly the just-started shutdown
commands, the first wait having emptied `self.managers`), drain, and
unmount the renderer last. -/
def Monitor.aexit_trace (cfg : BroodConfig) (managers : List CommandConfig)
    (watchers : List Nat) : List ShutdownStep :=
  Monitor.terminate_trace managers watchers ++ [.rendererDrain]
    ++ Monitor.wait_trace managers watchers ++ [.rendererDrain]
    ++ (Monitor.shutdown_commands cfg).map .startCmd ++ [.rendererDrain]
    ++ Monitor.wait_trace (Monitor.shutdown_commands cfg) watchers ++ [.rendererDrain]
    ++ [.unmount]

/-- The configs a shutdown-step trace starts, in order. -/
def startCmdsOf (l : List ShutdownStep) : List CommandConfig :=
  l.filterMap fun a =>
    match a with
    | .startCmd c => some c
    | _ => none

/-- A sample command config declaring a `shutdown` command, used in concrete
evaluations. -/
def sampleShutdownCfg : CommandConfig :=
  { name := "a", command := StrOrList.str "sleep 1000",
    shutdown := some (StrOrList.str "echo bye") }

/-- A sample brood config holding `sampleShutdownCfg`. -/
def sampleBroodConfig : BroodConfig :=
  { failure_mode := FailureMode.continue_, commands := [sampleShutdownCfg] }

/-- A sample command config whose `shutdown` is the empty string: non-null,
but falsy under Python truthiness. -/
def sampleEmptyShutdownCfg : CommandConfig :=
  { name := "e", command := StrOrList.str "sleep 5",
    shutdown := some (StrOrList.str "") }

/-- A sample brood config holding `sampleEmptyShutdownCfg`. -/
def sampleEmptyShutdownBrood : BroodConfig :=
  { failure_mode := FailureMode.continue_,
    commands := [sampleEmptyShutdownCfg] }

/-- The `Once`-copy that `CommandConfig.shutdown_config` synthesizes from
`sampleEmptyShutdownCfg`. -/
def sampleEmptyShutdownCopy : CommandConfig :=
  { sampleEmptyShutdownCfg with
      command := StrOrList.str "", starter := StarterConfig.once }

/-! ## config.py / executor.py / main.py : error propagation -/

/-- `BroodConfig.load` (config.py lines 187-199): compute the identify tags
of the path, intersect with `FORMATS`, and raise `UnknownFormat` when the
intersection is empty; otherwise parse.  Only the raising behaviour is
relevant; the parsed result is abstracted to `Unit`. -/
def BroodConfig.load_result (tags : List String) : Except Unit Unit :=
  match tags.any (fun t => FORMATS.contains t) with
  | true => .ok ()
  | false => .error ()

/-- How the supervisor's async body ends, before `Executor.__aexit__` sees
it. -/
inductive RunCondition
  /-- natural completion -/
  | ok
  /-- SIGINT: `CancelledError` delivered into the body by `asyncio.run` -/
  | keyboard_interrupt
  /-- `KillOthers` raised by the event handler -/
  | kill_others
  /-- any other internal error -/
  | internal_error
deriving DecidableEq, Repr

/-- `Executor.__aexit__` (executor.py lines 70-116) ends with `return True`
on every path, for every exception type (and for no exception), so every
exception reaching the `async with Executor(...)` block's exit is
suppressed after the shutdown sequence runs. -/
def Executor.aexit_suppresses : Option RunCondition → Bool :=
  fun _ => true

/-- What escapes from `execute` (main.py lines 72-74): the condition's
exception enters `Executor.__aexit__`; it propagates only if `__aexit__`
does not suppress it. -/
def execute_raises (c : RunCondition) : Option RunCondition :=
  match c with
  | .ok => none
  | e => if Executor.aexit_suppresses (some e) then none else some e

/-- The process exit code of the `run` CLI command (main.py lines 20-69):
`BroodConfig.load` runs first and an `UnknownFormat` escapes uncaught
(nonzero exit, modelled as 1); `--dry` returns before executing; otherwise
`asyncio.run(execute(...))` runs — on Ctrl-C `asyncio.run` re-raises the
original `KeyboardInterrupt` after the (suppressed) cancellation and the
`except KeyboardInterrupt: raise Exit(code=0)` maps it to exit code 0; any
other exception escaping `execute` would exit nonzero. -/
def Main.run_exit_code (tags : List String) (dry : Bool)
    (c : RunCondition) : Nat :=
  match BroodConfig.load_result tags with
  | .error () => 1
  | .ok () =>
    if dry then 0
    else
      match c with
      | .keyboard_interrupt => 0
      | cond =>
        match execute_raises cond with
        | none => 0
        | some _ => 1

/-! ## command.py : the single-command lifecycle as an interleaving

`Command.start` (command.py lines 41-74) publishes an Info message, spawns
the child, constructs the `Command` (which `create_task`s the reader, the
stats collector and the waiter), and publishes the `Started` event.  The
created tasks cannot run before the creating coroutine suspends; `Fanout`
is absent from `src/` and is modelled from the spec: `put` enqueues into
every consumer queue without blocking (spec §3/§4.1, "the producer never
blocks"), so `Started` is published before any task of the command runs.
The reader (lines 157-171) reads lines until EOF; the waiter (lines
140-155) awaits process exit, then awaits the reader task, then publishes
the `Stopped` event.  The stats collector touches neither fanout and is
omitted. -/

/-- The observable actions of one command's tasks. -/
inductive Act
  /-- `events.put(Event(..., Started))` at the end of `Command.start` -/
  | pubStarted
  /-- `events.put(Event(..., Stopped))` at the end of `Command.wait` -/
  | pubStopped
  /-- the reader consuming one non-empty line -/
  | readLine (line : String)
  /-- the reader observing EOF and returning -/
  | readEOF
  /-- `await self.process.wait()` returning in the waiter -/
  | procExit
deriving DecidableEq, Repr

/-- The remaining program of `Command.start` once the three tasks exist:
publish the `Started` event. -/
def startProg : List Act := [.pubStarted]

/-- The program of the reader task for a child whose stdout holds the given
lines. -/
def readerProg (lines : List String) : List Act :=
  lines.map .readLine ++ [.readEOF]

/-- The program of one invocation of the `Command.wait` coroutine: observe
process exit (`await self.process.wait()`), then (after the reader has
finished — `await self.reader`) publish `Stopped`.  `wait` publishes one
`Stopped` on **every** invocation: once in the command's background waiter
task (scheduled by `__post_init__`), and once more per `manager.wait()`
call that `Monitor.wait` issues during shutdown (monitor.py lines 196, 202
via 215-227) for commands still live at shutdown and for shutdown
commands. -/
def waiterProg : List Act := [.procExit, .pubStopped]

/-- Complete cooperative executions of one command's task programs.
`Exec sp rp wp1 wp2 t` holds when, starting with remaining programs `sp`
(start), `rp` (reader), `wp1` (the background waiter task) and `wp2` (the
monitor's extra `manager.wait()` invocation during shutdown — `[]` when the
command was reaped by the event handler before shutdown, `waiterProg` when
the monitor re-waits it), some interleaving runs all four to completion and
emits exactly the trace `t`.  The task programs can only run once `start`
has finished (`create_task` schedules them and `start` never suspends again
before publishing `Started`), and either `wait` invocation may emit
`pubStopped` only when the reader's program is exhausted
(`await self.reader` in `Command.wait`). -/
inductive Exec : List Act → List Act → List Act → List Act → List Act → Prop
  | done : Exec [] [] [] [] []
  | startStep {a sp rp wp1 wp2 t} : Exec sp rp wp1 wp2 t →
      Exec (a :: sp) rp wp1 wp2 (a :: t)
  | readerStep {a rp wp1 wp2 t} : Exec [] rp wp1 wp2 t →
      Exec [] (a :: rp) wp1 wp2 (a :: t)
  | waiter1Step {a rp wp1 wp2 t} : (a = .pubStopped → rp = []) →
      Exec [] rp wp1 wp2 t → Exec [] rp (a :: wp1) wp2 (a :: t)
  | waiter2Step {a rp wp1 wp2 t} : (a = .pubStopped → rp = []) →
      Exec [] rp wp1 wp2 t → Exec [] rp wp1 (a :: wp2) (a :: t)

/-! ## Helper lemmas -/

theorem verbosity_le_iff (v w : Verbosity) :
    Verbosity.le v w = true ↔ v.toInt ≤ w.toInt := by
  cases v <;> cases w <;> decide

/-! ## Claims -/

/-- C2 (failing-input evaluation): the claim says `handle_managers` raises
`KillOthers` exactly when the configured failure mode is `KillOthers`, the
exit code is nonzero and `was_killed` is false.  But `use_enum_values =
True` makes pydantic store the failure mode as its plain string value, for
which the handler's identity test
`self.config.failure_mode is FailureMode.KILL_OTHERS` is false, so the
`KillOthers` branch is unreachable for every validated config — in
particular for a loaded kill_others config whose command exits
spontaneously with code 7, where the claim says it raises. -/
theorem C2_kill_others_never_raised :
    (∀ (m : FailureMode) (managers : List ManagerView) (mv : ManagerView),
      (Monitor.handle_stopped (storedFailureMode m) managers mv).2.2 ≠
        StopOutcome.killOthers)
    ∧ (Monitor.handle_stopped (storedFailureMode FailureMode.kill_others) []
        { command_config :=
            { name := "b", command := StrOrList.str "exit 7",
              starter := StarterConfig.once },
          exit_code := some 7, was_killed := false }).2.2 =
        StopOutcome.ok := by
  constructor
  · intro m managers mv hc
    have hfalse : (storedFailureMode m).isKillOthers = false := by
      cases m <;> rfl
    simp [Monitor.handle_stopped, hfalse,
      StarterConfig.restartOnExitAttr] at hc
    split at hc <;> simp_all
  · rfl

/-- C5 (failing-input evaluation): for a stopped command whose starter is
`RestartConfig`, the event handler's restart branch reads
`starter.restart_on_exit`, an attribute no starter configuration class
defines, so it ends in an `AttributeError` instead of scheduling the
delayed restart the claim describes. -/
theorem C5_restart_branch_attribute_error :
    (Monitor.handle_stopped (storedFailureMode FailureMode.continue_) []
      { command_config :=
          { name := "a", command := StrOrList.str "exit 0",
            starter := StarterConfig.restart 2 },
        exit_code := some 0, was_killed := false }).2.2 =
      StopOutcome.attributeError := by
  rfl

/-- C6: for an `AfterStarter` with prerequisite set `waiting_for`,
`handle_event` adds the event's command name to `done` exactly when the
event is `Stopped` with exit code 0, `can_start` returns true exactly when
`waiting_for` is a subset of `done`, and `was_started` resets `done` to the
empty set. -/
theorem C6_after_starter (s : AfterStarter) (e : Event) :
    ((e.type = EventType.stopped ∧ e.command.exit_code = some 0) →
      (AfterStarter.handle_event e s).done = insert e.command.config.name s.done)
    ∧ (¬(e.type = EventType.stopped ∧ e.command.exit_code = some 0) →
      AfterStarter.handle_event e s = s)
    ∧ (AfterStarter.can_start s = true ↔ s.waiting_for ⊆ s.done)
    ∧ (AfterStarter.was_started s).done = ∅
    ∧ (AfterStarter.was_started s).waiting_for = s.waiting_for := by
  refine ⟨fun h => ?_, fun h => ?_, ?_, rfl, rfl⟩
  · simp [AfterStarter.handle_event, h]
  · simp [AfterStarter.handle_event, h]
  · simp [AfterStarter.can_start]

/-- Witness for C6 at a concrete starter and event. -/
theorem C6_after_starter_witness :
    (AfterStarter.handle_event
        ⟨⟨{ name := "a", command := StrOrList.str "exit 0" }, some 0⟩,
          EventType.stopped⟩
        ⟨{"a", "b"}, ∅⟩).done = insert "a" (∅ : Finset String)
    ∧ AfterStarter.handle_event
        ⟨⟨{ name := "a", command := StrOrList.str "exit 0" }, some 1⟩,
          EventType.stopped⟩
        ⟨{"a", "b"}, ∅⟩ = ⟨{"a", "b"}, ∅⟩ :=
  ⟨(C6_after_starter ⟨{"a", "b"}, ∅⟩
      ⟨⟨{ name := "a", command := StrOrList.str "exit 0" }, some 0⟩,
        EventType.stopped⟩).1 (by exact ⟨rfl, rfl⟩),
   (C6_after_starter ⟨{"a", "b"}, ∅⟩
      ⟨⟨{ name := "a", command := StrOrList.str "exit 0" }, some 1⟩,
        EventType.stopped⟩).2.1 (by simp)⟩

/-- C7: `terminate` and `kill` each set `was_killed`, emit exactly one Info
internal message, and send SIGTERM (resp. SIGKILL) to the child's process
group; each is a no-op once the command has exited, so a second
`terminate()` after the first one's signal has taken effect (the process
exited) adds nothing. -/
theorem C7_terminate_kill (cfg : CommandConfig) (k : Bool) :
    Command.terminate cfg ⟨false, k⟩ =
      (⟨false, true⟩,
        ⟨[(s!"Terminating command: {cfg.command_string}", Verbosity.info)],
          [Sig.sigterm]⟩)
    ∧ Command.kill cfg ⟨false, k⟩ =
      (⟨false, true⟩,
        ⟨[(s!"Killing command: {cfg.command_string}", Verbosity.info)],
          [Sig.sigkill]⟩)
    ∧ Command.terminate cfg ⟨true, k⟩ = (⟨true, k⟩, ⟨[], []⟩)
    ∧ Command.kill cfg ⟨true, k⟩ = (⟨true, k⟩, ⟨[], []⟩)
    ∧ Command.terminate cfg ((Command.terminate cfg ⟨false, k⟩).1.exit) =
        ((Command.terminate cfg ⟨false, k⟩).1.exit, ⟨[], []⟩) :=
  ⟨rfl, rfl, rfl, rfl, rfl⟩

/-- C8: the output reader publishes exactly one `CommandMessage` per line
read before EOF, carrying the line's text with trailing whitespace stripped
and the command's config, and stops at the first EOF read. -/
theorem C8_read_output (cfg : CommandConfig) (stream : List String) :
    Command.read_output cfg stream =
      (stream.takeWhile fun l => l != "").map
        (fun l => { text := pyRstrip l, command_config := cfg })
    ∧ ∀ m ∈ Command.read_output cfg stream, m.command_config = cfg := by
  constructor
  · induction stream with
    | nil => rfl
    | cons l rest ih =>
      by_cases h : l = ""
      · simp [Command.read_output, List.takeWhile, h]
      · rw [List.takeWhile_cons_of_pos (by simp [h])]
        simp [Command.read_output, h, ih]
  · intro m hm
    induction stream with
    | nil => cases hm
    | cons l rest ih =>
      by_cases h : l = ""
      · simp [Command.read_output, h] at hm
      · simp only [Command.read_output, if_neg h, List.mem_cons] at hm
        cases hm with
        | inl h' => simp [h']
        | inr h' => exact ih h'

/-- C9: only `UnknownFormat` (raised by `BroodConfig.load` when the config
path's tags contain none of json/toml/yaml) escapes to the process exit
code; `Executor.__aexit__` suppresses every other condition and the `run`
command maps the re-raised `KeyboardInterrupt` to exit code 0, so every
other condition exits with code 0. -/
theorem C9_propagation_policy (tags : List String) (dry : Bool)
    (c : RunCondition) :
    (Main.run_exit_code tags dry c = 0 ↔
      tags.any (fun t => FORMATS.contains t) = true)
    ∧ (∀ e, Executor.aexit_suppresses e = true)
    ∧ (BroodConfig.load_result tags = Except.error () ↔
      tags.any (fun t => FORMATS.contains t) = false) := by
  refine ⟨?_, fun _ => rfl, ?_⟩
  · cases hb : tags.any (fun t => FORMATS.contains t) <;> cases c <;>
      cases dry <;>
      · unfold Main.run_exit_code BroodConfig.load_result execute_raises
          Executor.aexit_suppresses
        rw [hb]
        simp
  · cases hb : tags.any (fun t => FORMATS.contains t) <;>
      · unfold BroodConfig.load_result
        rw [hb]
        simp

/-- C10: the renderer delivers an `InternalMessage` to its display handler
iff the message's verbosity is `<=` the renderer's configured verbosity
under `Debug < Info < Warning < Error`; more severe messages are silently
discarded; every `CommandMessage` is always delivered. -/
theorem C10_renderer_verbosity_filter (rv : Verbosity) :
    (∀ t v, Renderer.handle_message rv (MessageE.internal t v) =
        some (Delivery.internal t v) ↔ v.toInt ≤ rv.toInt)
    ∧ (∀ t v, Renderer.handle_message rv (MessageE.internal t v) = none ↔
        rv.toInt < v.toInt)
    ∧ (∀ t cfg, Renderer.handle_message rv (MessageE.command t cfg) =
        some (Delivery.command t cfg))
    ∧ Verbosity.toInt .debug < Verbosity.toInt .info
    ∧ Verbosity.toInt .info < Verbosity.toInt .warning
    ∧ Verbosity.toInt .warning < Verbosity.toInt .error := by
  refine ⟨fun t v => ?_, fun t v => ?_, fun t cfg => rfl, by decide, by decide,
    by decide⟩
  · by_cases hle : Verbosity.le v rv = true
    · simp [Renderer.handle_message, hle, (verbosity_le_iff v rv).mp hle]
    · have : ¬ v.toInt ≤ rv.toInt := fun hc =>
        hle ((verbosity_le_iff v rv).mpr hc)
      simp [Renderer.handle_message, hle, this]
  · by_cases hle : Verbosity.le v rv = true
    · have := (verbosity_le_iff v rv).mp hle
      simp [Renderer.handle_message, hle]
      omega
    · have hn : ¬ v.toInt ≤ rv.toInt := fun hc =>
        hle ((verbosity_le_iff v rv).mpr hc)
      simp [Renderer.handle_message, hle]
      omega

theorem dictInsert_keys (acc : List (CommandConfig × FsEvent))
    (c : CommandConfig) (e : FsEvent) :
    dictKeys (dictInsert acc c e) =
      if c ∈ dictKeys acc then dictKeys acc else dictKeys acc ++ [c] := by
  induction acc with
  | nil => simp [dictInsert, dictKeys]
  | cons p rest ih =>
    obtain ⟨c', e'⟩ := p
    by_cases h : c' = c
    · simp [dictInsert, dictKeys, h]
    · simp only [dictInsert, if_neg h, dictKeys, List.map_cons] at ih ⊢
      rw [ih]
      by_cases hm : c ∈ List.map Prod.fst rest
      · simp [List.mem_cons, hm, Ne.symm h]
      · have hnc : ¬ c ∈ (c' :: List.map Prod.fst rest) := by
          simp [List.mem_cons, Ne.symm h, hm]
        simp [hm, hnc]

theorem dictInsert_keys_nodup (acc : List (CommandConfig × FsEvent))
    (c : CommandConfig) (e : FsEvent) (h : (dictKeys acc).Nodup) :
    (dictKeys (dictInsert acc c e)).Nodup := by
  rw [dictInsert_keys]
  by_cases hm : c ∈ dictKeys acc
  · simpa [hm]
  · rw [if_neg hm]
    refine List.Nodup.append h (List.nodup_singleton c) ?_
    intro a ha hb
    rw [List.mem_singleton] at hb
    subst hb
    exact hm ha

theorem dictInsert_keys_mem (acc : List (CommandConfig × FsEvent))
    (c : CommandConfig) (e : FsEvent) :
    c ∈ dictKeys (dictInsert acc c e) := by
  rw [dictInsert_keys]
  by_cases hm : c ∈ dictKeys acc <;> simp [hm]

theorem dictInsert_keys_superset (acc : List (CommandConfig × FsEvent))
    (c c' : CommandConfig) (e : FsEvent) (h : c' ∈ dictKeys acc) :
    c' ∈ dictKeys (dictInsert acc c e) := by
  rw [dictInsert_keys]
  by_cases hm : c ∈ dictKeys acc <;> simp [hm, h]

theorem windowStarts_go_keys_nodup (l : List (CommandConfig × FsEvent))
    (acc : List (CommandConfig × FsEvent)) (h : (dictKeys acc).Nodup) :
    (dictKeys (l.foldl (fun acc p => dictInsert acc p.1 p.2) acc)).Nodup := by
  induction l generalizing acc with
  | nil => exact h
  | cons p rest ih =>
    exact ih (dictInsert acc p.1 p.2) (dictInsert_keys_nodup acc p.1 p.2 h)

theorem windowStarts_keys_nodup (drained : List (CommandConfig × FsEvent)) :
    (dictKeys (windowStarts drained)).Nodup :=
  windowStarts_go_keys_nodup drained [] (by simp [dictKeys])

theorem windowStarts_go_keys_mem (l : List (CommandConfig × FsEvent))
    (acc : List (CommandConfig × FsEvent)) (c : CommandConfig)
    (h : c ∈ dictKeys acc ∨ ∃ e, (c, e) ∈ l) :
    c ∈ dictKeys (l.foldl (fun acc p => dictInsert acc p.1 p.2) acc) := by
  induction l generalizing acc with
  | nil =>
    rcases h with h | ⟨e, he⟩
    · exact h
    · cases he
  | cons p rest ih =>
    rcases h with h | ⟨e, he⟩
    · exact ih (dictInsert acc p.1 p.2)
        (Or.inl (dictInsert_keys_superset acc p.1 c p.2 h))
    · rcases List.mem_cons.mp he with he | he
      · subst he
        exact ih (dictInsert acc c e) (Or.inl (dictInsert_keys_mem acc c e))
      · exact ih (dictInsert acc p.1 p.2) (Or.inr ⟨e, he⟩)

theorem windowStarts_keys_mem (drained : List (CommandConfig × FsEvent))
    (c : CommandConfig) (e : FsEvent) (h : (c, e) ∈ drained) :
    c ∈ dictKeys (windowStarts drained) :=
  windowStarts_go_keys_mem drained [] c (Or.inr ⟨e, h⟩)

theorem startsOf_window (drained : List (CommandConfig × FsEvent))
    (managers : List Manager) :
    startsOf (Monitor.handle_watchers_window drained managers) =
      dictKeys (windowStarts drained) := by
  unfold startsOf Monitor.handle_watchers_window dictKeys
  rw [List.filterMap_append, List.filterMap_append]
  rw [List.filterMap_eq_nil_iff.mpr (fun a ha => by
      rcases List.mem_map.mp ha with ⟨m, _, rfl⟩
      rfl)]
  rw [List.filterMap_eq_nil_iff.mpr (fun a ha => by
      rcases List.mem_map.mp ha with ⟨p, _, rfl⟩
      rfl)]
  simp only [List.nil_append]
  generalize windowStarts drained = st
  induction st with
  | nil => rfl
  | cons p rest ih =>
    rw [List.map_cons, List.map_cons]
    show p.1 :: List.filterMap _ (rest.map fun p => WatchAction.start p.1) =
      p.1 :: rest.map Prod.fst
    rw [ih]

/-- C4: for one drain-buffer window, `handle_watchers` starts at most one
new command per config (the configs started are pairwise distinct), every
currently-live command whose config is a no-multiple watch config occurring
in the window is terminated, every termination precedes every start, and
afterwards no unterminated live command with that config remains — so at
most one live command (the newly-started one) has that config. -/
theorem C4_watch_window (drained : List (CommandConfig × FsEvent))
    (managers : List Manager) (c : CommandConfig) (e : FsEvent)
    (hnm : watchNoMulti c = true) (hmem : (c, e) ∈ drained) :
    (startsOf (Monitor.handle_watchers_window drained managers)).Nodup
    ∧ c ∈ startsOf (Monitor.handle_watchers_window drained managers)
    ∧ (∀ m ∈ managers, m.command_config = c →
        WatchAction.terminate m ∈ Monitor.handle_watchers_window drained managers)
    ∧ (∀ (i j : ℕ) (c' : CommandConfig) (m' : Manager),
        (Monitor.handle_watchers_window drained managers)[i]? =
          some (WatchAction.start c') →
        (Monitor.handle_watchers_window drained managers)[j]? =
          some (WatchAction.terminate m') → j < i)
    ∧ (windowSurvivors drained managers).countP
        (fun m => m.command_config == c) = 0 := by
  refine ⟨?_, ?_, ?_, ?_, ?_⟩
  · rw [startsOf_window]
    exact windowStarts_keys_nodup drained
  · rw [startsOf_window]
    exact windowStarts_keys_mem drained c e hmem
  · intro m hm hc
    have hstop : m ∈ windowStops drained managers := by
      rw [windowStops, List.mem_filter]
      refine ⟨hm, ?_⟩
      rw [List.any_eq_true]
      exact ⟨(c, e), hmem, by simp [hnm, hc]⟩
    unfold Monitor.handle_watchers_window
    exact List.mem_append_left _ (List.mem_append_left _
      (List.mem_map_of_mem _ hstop))
  · intro i j c' m' hi hj
    set seg1 := (windowStops drained managers).map WatchAction.terminate with hs1
    set rest := (windowStarts drained).map (fun p =>
        WatchAction.message s!"Path {p.2.src_path} was {p.2.event_type}, starting command: {p.1.command_string}")
      ++ (windowStarts drained).map (fun p => WatchAction.start p.1) with hs2
    have hact : Monitor.handle_watchers_window drained managers =
        seg1 ++ rest := by
      rw [Monitor.handle_watchers_window, hs1, hs2, List.append_assoc]
    have hjlt : j < seg1.length := by
      by_contra hge
      push_neg at hge
      rw [hact, List.getElem?_append_right hge] at hj
      have hmem' : WatchAction.terminate m' ∈ rest := by
        have := List.getElem?_mem hj
        exact this
      rw [hs2] at hmem'
      rcases List.mem_append.mp hmem' with h' | h' <;>
        · rcases List.mem_map.mp h' with ⟨p, _, hp⟩
          cases hp
    have hige : seg1.length ≤ i := by
      by_contra hlt
      push_neg at hlt
      rw [hact, List.getElem?_append_left hlt] at hi
      have hmem' : WatchAction.start c' ∈ seg1 := List.getElem?_mem hi
      rw [hs1] at hmem'
      rcases List.mem_map.mp hmem' with ⟨p, _, hp⟩
      cases hp
    omega
  · rw [List.countP_eq_zero]
    intro m hm
    rw [windowSurvivors, List.mem_filter] at hm
    obtain ⟨-, hpred⟩ := hm
    rw [Bool.not_eq_eq_eq_not, Bool.not_true, List.any_eq_false] at hpred
    have := hpred (c, e) hmem
    simp only [Bool.and_eq_true, beq_iff_eq] at this
    simp only [beq_iff_eq]
    intro hceq
    exact this ⟨hnm, hceq.symm⟩

/-- Witness for C4 at a concrete window: one modify event for a
no-multiple watch config with one live command of that config. -/
theorem C4_watch_window_witness :
    (startsOf (Monitor.handle_watchers_window
        [(sampleWatchConfig, sampleFsEvent)] [sampleWatchManager])).Nodup
    ∧ WatchAction.terminate sampleWatchManager ∈
        Monitor.handle_watchers_window
          [(sampleWatchConfig, sampleFsEvent)] [sampleWatchManager] :=
  ⟨(C4_watch_window [(sampleWatchConfig, sampleFsEvent)] [sampleWatchManager]
      sampleWatchConfig sampleFsEvent rfl (by simp)).1,
    (C4_watch_window [(sampleWatchConfig, sampleFsEvent)] [sampleWatchManager]
        sampleWatchConfig sampleFsEvent rfl (by simp)).2.2.1
      sampleWatchManager (by simp) rfl⟩

theorem mem_append_before {α} (l1 l2 : List α) {a b : α} (ha : a ∈ l1)
    (hb : b ∈ l2) :
    ∃ i j : ℕ, i < j ∧ (l1 ++ l2)[i]? = some a ∧ (l1 ++ l2)[j]? = some b := by
  obtain ⟨n, hn, rfl⟩ := List.getElem_of_mem ha
  obtain ⟨m, hm, rfl⟩ := List.getElem_of_mem hb
  refine ⟨n, l1.length + m, by omega, ?_, ?_⟩
  · rw [List.getElem?_append_left hn]
    exact List.getElem?_eq_getElem hn
  · rw [List.getElem?_append_right (by omega)]
    rw [Nat.add_sub_cancel_left]
    exact List.getElem?_eq_getElem hm

theorem terminateCmd_mem_terminate_trace {c : CommandConfig}
    {ms : List CommandConfig} (ws : List Nat) (hc : c ∈ ms) :
    ShutdownStep.terminateCmd c ∈ Monitor.terminate_trace ms ws := by
  unfold Monitor.terminate_trace
  exact List.mem_append_left _ (List.mem_map_of_mem _ hc)

theorem stopWatcher_mem_terminate_trace {w : Nat} (ms : List CommandConfig)
    {ws : List Nat} (hw : w ∈ ws) :
    ShutdownStep.stopWatcher w ∈ Monitor.terminate_trace ms ws := by
  unfold Monitor.terminate_trace
  exact List.mem_append_right _ (List.mem_map_of_mem _ hw)

theorem waitCmd_mem_wait_trace {c : CommandConfig} {ms : List CommandConfig}
    (ws : List Nat) (hc : c ∈ ms) :
    ShutdownStep.waitCmd c ∈ Monitor.wait_trace ms ws := by
  unfold Monitor.wait_trace
  exact List.mem_append_left _ (List.mem_map_of_mem _ hc)

theorem startCmdsOf_terminate_trace (managers : List CommandConfig)
    (watchers : List Nat) :
    startCmdsOf (Monitor.terminate_trace managers watchers) = [] := by
  refine List.filterMap_eq_nil_iff.mpr fun a ha => ?_
  rcases List.mem_append.mp ha with h | h <;>
    · rcases List.mem_map.mp h with ⟨x, _, rfl⟩
      rfl

theorem startCmdsOf_wait_trace (managers : List CommandConfig)
    (watchers : List Nat) :
    startCmdsOf (Monitor.wait_trace managers watchers) = [] := by
  refine List.filterMap_eq_nil_iff.mpr fun a ha => ?_
  rcases List.mem_append.mp ha with h | h <;>
    · rcases List.mem_map.mp h with ⟨x, _, rfl⟩
      rfl

theorem startCmdsOf_start_map (l : List CommandConfig) :
    startCmdsOf (l.map ShutdownStep.startCmd) = l := by
  induction l with
  | nil => rfl
  | cons c rest ih =>
    rw [List.map_cons]
    show c :: startCmdsOf (rest.map ShutdownStep.startCmd) = c :: rest
    rw [ih]

/-- C3 (amended): the shutdown protocol of `Monitor.__aexit__` runs its
phases in order — terminate every live command and stop every watcher, wait
for every live command, start the `Once`-copies synthesized from every
original config whose `shutdown` is truthy (non-None and non-empty — the
source filters with `if command.shutdown`, not with a `None` test), wait
again — with a renderer drain run between consecutive phases and the
renderer unmount last. -/
theorem C3_shutdown_protocol (cfg : BroodConfig) (managers : List CommandConfig)
    (watchers : List Nat) :
    (∀ c ∈ managers, ∃ i j : ℕ, i < j ∧
        (Monitor.aexit_trace cfg managers watchers)[i]? =
          some (ShutdownStep.terminateCmd c) ∧
        (Monitor.aexit_trace cfg managers watchers)[j]? =
          some (ShutdownStep.waitCmd c))
    ∧ (∀ w ∈ watchers,
        ShutdownStep.stopWatcher w ∈ Monitor.aexit_trace cfg managers watchers)
    ∧ startCmdsOf (Monitor.aexit_trace cfg managers watchers) =
        cfg.commands.filterMap (fun c =>
          if pyTruthy c.shutdown = true then CommandConfig.shutdown_config c
          else none)
    ∧ (∀ c ∈ managers, ∀ sc ∈ Monitor.shutdown_commands cfg, ∃ i j : ℕ, i < j ∧
        (Monitor.aexit_trace cfg managers watchers)[i]? =
          some (ShutdownStep.waitCmd c) ∧
        (Monitor.aexit_trace cfg managers watchers)[j]? =
          some (ShutdownStep.startCmd sc))
    ∧ (∀ sc ∈ Monitor.shutdown_commands cfg, ∃ i j : ℕ, i < j ∧
        (Monitor.aexit_trace cfg managers watchers)[i]? =
          some (ShutdownStep.startCmd sc) ∧
        (Monitor.aexit_trace cfg managers watchers)[j]? =
          some (ShutdownStep.waitCmd sc))
    ∧ (Monitor.aexit_trace cfg managers watchers).count
        ShutdownStep.rendererDrain = 4
    ∧ (Monitor.aexit_trace cfg managers watchers).getLast? =
        some ShutdownStep.unmount := by
  refine ⟨?_, ?_, ?_, ?_, ?_, ?_, ?_⟩
  · intro c hc
    have hsplit : Monitor.aexit_trace cfg managers watchers =
        (Monitor.terminate_trace managers watchers ++ [ShutdownStep.rendererDrain]) ++
          (Monitor.wait_trace managers watchers ++ [ShutdownStep.rendererDrain]
            ++ (Monitor.shutdown_commands cfg).map ShutdownStep.startCmd
            ++ [ShutdownStep.rendererDrain]
            ++ Monitor.wait_trace (Monitor.shutdown_commands cfg) watchers
            ++ [ShutdownStep.rendererDrain] ++ [ShutdownStep.unmount]) := by
      simp [Monitor.aexit_trace, List.append_assoc]
    rw [hsplit]
    exact mem_append_before _ _
      (List.mem_append_left _ (terminateCmd_mem_terminate_trace watchers hc))
      (List.mem_append_left _ (List.mem_append_left _ (List.mem_append_left _
        (List.mem_append_left _ (List.mem_append_left _
          (List.mem_append_left _ (waitCmd_mem_wait_trace watchers hc)))))))
  · intro w hw
    unfold Monitor.aexit_trace
    exact List.mem_append_left _ (List.mem_append_left _ (List.mem_append_left _
      (List.mem_append_left _ (List.mem_append_left _ (List.mem_append_left _
        (List.mem_append_left _ (List.mem_append_left _
          (stopWatcher_mem_terminate_trace managers hw))))))))
  · have hsc : Monitor.shutdown_commands cfg =
        cfg.commands.filterMap (fun c =>
          if pyTruthy c.shutdown = true then CommandConfig.shutdown_config c
          else none) := by
      unfold Monitor.shutdown_commands
      congr 1
      funext c
      by_cases ht : pyTruthy c.shutdown = true
      · rw [if_pos ht, if_pos ht]
        cases hc : c.shutdown with
        | none =>
          rw [hc] at ht
          simp [pyTruthy] at ht
        | some sd => simp [CommandConfig.shutdown_config, hc]
      · rw [if_neg ht, if_neg ht]
    rw [← hsc]
    unfold Monitor.aexit_trace startCmdsOf
    rw [List.filterMap_append, List.filterMap_append, List.filterMap_append,
      List.filterMap_append, List.filterMap_append, List.filterMap_append,
      List.filterMap_append, List.filterMap_append]
    rw [show List.filterMap _ (Monitor.terminate_trace managers watchers) = []
        from startCmdsOf_terminate_trace managers watchers,
      show List.filterMap _ (Monitor.wait_trace managers watchers) = []
        from startCmdsOf_wait_trace managers watchers,
      show List.filterMap _ (Monitor.wait_trace (Monitor.shutdown_commands cfg)
          watchers) = []
        from startCmdsOf_wait_trace (Monitor.shutdown_commands cfg) watchers,
      show List.filterMap _ ((Monitor.shutdown_commands cfg).map
          ShutdownStep.startCmd) = Monitor.shutdown_commands cfg
        from startCmdsOf_start_map (Monitor.shutdown_commands cfg)]
    simp
  · intro c hc sc hsc
    have hsplit : Monitor.aexit_trace cfg managers watchers =
        (Monitor.terminate_trace managers watchers ++ [ShutdownStep.rendererDrain]
            ++ Monitor.wait_trace managers watchers) ++
          ([ShutdownStep.rendererDrain]
            ++ (Monitor.shutdown_commands cfg).map ShutdownStep.startCmd
            ++ [ShutdownStep.rendererDrain]
            ++ Monitor.wait_trace (Monitor.shutdown_commands cfg) watchers
            ++ [ShutdownStep.rendererDrain] ++ [ShutdownStep.unmount]) := by
      simp [Monitor.aexit_trace, List.append_assoc]
    rw [hsplit]
    exact mem_append_before _ _
      (List.mem_append_right _ (waitCmd_mem_wait_trace watchers hc))
      (List.mem_append_left _ (List.mem_append_left _ (List.mem_append_left _
        (List.mem_append_left _ (List.mem_append_right _
          (List.mem_map_of_mem _ hsc))))))
  · intro sc hsc
    have hsplit : Monitor.aexit_trace cfg managers watchers =
        (Monitor.terminate_trace managers watchers ++ [ShutdownStep.rendererDrain]
            ++ Monitor.wait_trace managers watchers ++ [ShutdownStep.rendererDrain]
            ++ (Monitor.shutdown_commands cfg).map ShutdownStep.startCmd) ++
          ([ShutdownStep.rendererDrain]
            ++ Monitor.wait_trace (Monitor.shutdown_commands cfg) watchers
            ++ [ShutdownStep.rendererDrain] ++ [ShutdownStep.unmount]) := by
      simp [Monitor.aexit_trace, List.append_assoc]
    rw [hsplit]
    exact mem_append_before _ _
      (List.mem_append_right _ (List.mem_map_of_mem _ hsc))
      (List.mem_append_left _ (List.mem_append_left _ (List.mem_append_right _
        (waitCmd_mem_wait_trace watchers hsc))))
  · have hterm : ∀ (ms : List CommandConfig) (ws : List Nat),
        (Monitor.terminate_trace ms ws).count ShutdownStep.rendererDrain = 0 := by
      intro ms ws
      rw [List.count_eq_zero]
      intro h
      rcases List.mem_append.mp h with h | h <;>
        · rcases List.mem_map.mp h with ⟨x, _, hx⟩
          cases hx
    have hwait : ∀ (ms : List CommandConfig) (ws : List Nat),
        (Monitor.wait_trace ms ws).count ShutdownStep.rendererDrain = 0 := by
      intro ms ws
      rw [List.count_eq_zero]
      intro h
      rcases List.mem_append.mp h with h | h <;>
        · rcases List.mem_map.mp h with ⟨x, _, hx⟩
          cases hx
    have hstart : ((Monitor.shutdown_commands cfg).map
        ShutdownStep.startCmd).count ShutdownStep.rendererDrain = 0 := by
      rw [List.count_eq_zero]
      intro h
      rcases List.mem_map.mp h with ⟨x, _, hx⟩
      cases hx
    simp [Monitor.aexit_trace, List.count_append, hterm, hwait, hstart]
  · have hsplit : Monitor.aexit_trace cfg managers watchers =
        (Monitor.terminate_trace managers watchers ++ [ShutdownStep.rendererDrain]
            ++ Monitor.wait_trace managers watchers ++ [ShutdownStep.rendererDrain]
            ++ (Monitor.shutdown_commands cfg).map ShutdownStep.startCmd
            ++ [ShutdownStep.rendererDrain]
            ++ Monitor.wait_trace (Monitor.shutdown_commands cfg) watchers
            ++ [ShutdownStep.rendererDrain]) ++ [ShutdownStep.unmount] := by
      simp [Monitor.aexit_trace, List.append_assoc]
    rw [hsplit, List.getLast?_concat]

/-- C3 counterexample to the claim as stated: a config whose `shutdown` is
the empty string is non-null, and the claim says its `Once`-copy is started
during the shutdown phase — but the program's truthiness filter
(`if command.shutdown`) skips it, and the shutdown trace starts nothing. -/
theorem C3_nonnull_shutdown_counterexample :
    sampleEmptyShutdownCfg.shutdown ≠ none
    ∧ CommandConfig.shutdown_config sampleEmptyShutdownCfg =
        some sampleEmptyShutdownCopy
    ∧ startCmdsOf (Monitor.aexit_trace sampleEmptyShutdownBrood [] []) =
        [] := by
  refine ⟨by simp [sampleEmptyShutdownCfg], rfl, rfl⟩

/-- Witness for C3 at a concrete config with one live command declaring a
shutdown command and one watcher. -/
theorem C3_shutdown_protocol_witness :
    (∃ i j : ℕ, i < j ∧
      (Monitor.aexit_trace sampleBroodConfig [sampleShutdownCfg] [0])[i]? =
        some (ShutdownStep.terminateCmd sampleShutdownCfg) ∧
      (Monitor.aexit_trace sampleBroodConfig [sampleShutdownCfg] [0])[j]? =
        some (ShutdownStep.waitCmd sampleShutdownCfg))
    ∧ ShutdownStep.stopWatcher 0 ∈
        Monitor.aexit_trace sampleBroodConfig [sampleShutdownCfg] [0] :=
  ⟨(C3_shutdown_protocol sampleBroodConfig [sampleShutdownCfg] [0]).1
      sampleShutdownCfg (by simp),
    (C3_shutdown_protocol sampleBroodConfig [sampleShutdownCfg] [0]).2.1
      0 (by simp)⟩

theorem exec_count {sp rp wp1 wp2 t : List Act}
    (h : Exec sp rp wp1 wp2 t) (a : Act) :
    t.count a = sp.count a + rp.count a + wp1.count a + wp2.count a := by
  induction h with
  | done => simp
  | startStep h ih => simp [List.count_cons, ih]; ring
  | readerStep h ih => simp [List.count_cons, ih]; ring
  | waiter1Step hg h ih => simp [List.count_cons, ih]; ring
  | waiter2Step hg h ih => simp [List.count_cons, ih]; ring

theorem pubStopped_not_mem_readerProg (lines : List String) :
    Act.pubStopped ∉ readerProg lines := by
  intro hx
  unfold readerProg at hx
  rcases List.mem_append.mp hx with hx | hx
  · rcases List.mem_map.mp hx with ⟨l, _, hl⟩
    cases hl
  · simp at hx

theorem readerProg_count_pubStarted (lines : List String) :
    (readerProg lines).count Act.pubStarted = 0 := by
  rw [List.count_eq_zero]
  intro hx
  unfold readerProg at hx
  rcases List.mem_append.mp hx with hx | hx
  · rcases List.mem_map.mp hx with ⟨l, _, hl⟩
    cases hl
  · simp at hx

theorem readerProg_count_pubStopped (lines : List String) :
    (readerProg lines).count Act.pubStopped = 0 := by
  rw [List.count_eq_zero]
  exact pubStopped_not_mem_readerProg lines

theorem exec_stopped_after_eof {sp rp wp1 wp2 t : List Act}
    (h : Exec sp rp wp1 wp2 t) :
    Act.pubStopped ∉ sp → Act.pubStopped ∉ rp → Act.readEOF ∈ rp →
    ∀ j : ℕ, t[j]? = some Act.pubStopped →
      ∃ i : ℕ, i < j ∧ t[i]? = some Act.readEOF := by
  induction h with
  | done =>
    intro _ _ _ j hj
    simp at hj
  | @startStep a sp rp wp1 wp2 t h ih =>
    intro hsp hrp heof j hj
    cases j with
    | zero =>
      rw [List.getElem?_cons_zero] at hj
      injection hj with hj
      subst hj
      exact absurd (List.mem_cons_self _ _) hsp
    | succ j₁ =>
      rw [List.getElem?_cons_succ] at hj
      obtain ⟨i, hi, hie⟩ :=
        ih (fun hx => hsp (List.mem_cons_of_mem _ hx)) hrp heof j₁ hj
      exact ⟨i + 1, by omega, by rw [List.getElem?_cons_succ]; exact hie⟩
  | @readerStep a rp wp1 wp2 t h ih =>
    intro _ hrp heof j hj
    by_cases ha : a = Act.readEOF
    · subst ha
      cases j with
      | zero =>
        rw [List.getElem?_cons_zero] at hj
        injection hj with hj
        cases hj
      | succ j₁ =>
        exact ⟨0, by omega, by rw [List.getElem?_cons_zero]⟩
    · have heof₁ : Act.readEOF ∈ rp := by
        rcases List.mem_cons.mp heof with h₁ | h₁
        · exact absurd h₁.symm ha
        · exact h₁
      have hrp₁ : Act.pubStopped ∉ rp := fun hx =>
        hrp (List.mem_cons_of_mem _ hx)
      cases j with
      | zero =>
        rw [List.getElem?_cons_zero] at hj
        injection hj with hj
        subst hj
        exact absurd (List.mem_cons_self _ _) hrp
      | succ j₁ =>
        rw [List.getElem?_cons_succ] at hj
        obtain ⟨i, hi, hie⟩ := ih (by simp) hrp₁ heof₁ j₁ hj
        exact ⟨i + 1, by omega, by rw [List.getElem?_cons_succ]; exact hie⟩
  | @waiter1Step a rp wp1 wp2 t hg h ih =>
    intro _ hrp heof j hj
    have hane : a ≠ Act.pubStopped := by
      intro hEq
      rw [hg hEq] at heof
      simp at heof
    cases j with
    | zero =>
      rw [List.getElem?_cons_zero] at hj
      injection hj with hj
      exact absurd hj hane
    | succ j₁ =>
      rw [List.getElem?_cons_succ] at hj
      obtain ⟨i, hi, hie⟩ := ih (by simp) hrp heof j₁ hj
      exact ⟨i + 1, by omega, by rw [List.getElem?_cons_succ]; exact hie⟩
  | @waiter2Step a rp wp1 wp2 t hg h ih =>
    intro _ hrp heof j hj
    have hane : a ≠ Act.pubStopped := by
      intro hEq
      rw [hg hEq] at heof
      simp at heof
    cases j with
    | zero =>
      rw [List.getElem?_cons_zero] at hj
      injection hj with hj
      exact absurd hj hane
    | succ j₁ =>
      rw [List.getElem?_cons_succ] at hj
      obtain ⟨i, hi, hie⟩ := ih (by simp) hrp heof j₁ hj
      exact ⟨i + 1, by omega, by rw [List.getElem?_cons_succ]; exact hie⟩

/-- C1 counterexample to the claim as stated: `Command.wait` publishes a
`Stopped` event on every invocation, and `Monitor.wait` re-awaits
`manager.wait()` during shutdown for commands still live at shutdown and
for shutdown commands, so such a command receives two `Stopped` events —
here a complete execution of the faithful model with both invocations
yields a trace counting two `Stopped` publications. -/
theorem C1_double_stopped_counterexample :
    Exec startProg (readerProg ["hi"]) waiterProg waiterProg
      [Act.pubStarted, Act.readLine "hi", Act.readEOF, Act.procExit,
        Act.pubStopped, Act.procExit, Act.pubStopped]
    ∧ ([Act.pubStarted, Act.readLine "hi", Act.readEOF, Act.procExit,
        Act.pubStopped, Act.procExit, Act.pubStopped] : List Act).count
        Act.pubStopped = 2 :=
  ⟨Exec.startStep (Exec.readerStep (Exec.readerStep
      (Exec.waiter1Step (fun _ => rfl) (Exec.waiter1Step (fun _ => rfl)
        (Exec.waiter2Step (fun _ => rfl) (Exec.waiter2Step (fun _ => rfl)
          Exec.done)))))),
    by decide⟩

/-- C1 (amended): in every complete cooperative execution of one command's
tasks, exactly one `Started` event is published and it comes first; each
invocation of the `wait` coroutine publishes exactly one `Stopped` — one
from the background waiter alone, a second one when the monitor re-awaits
`manager.wait()` during shutdown — and every `Stopped` is published only
after `Started` and after the output reader has drained the child's stdout
to EOF. -/
theorem C1_command_lifecycle_events (lines : List String) (W t : List Act)
    (hW : W = [] ∨ W = waiterProg)
    (h : Exec startProg (readerProg lines) waiterProg W t) :
    t.count Act.pubStarted = 1
    ∧ t.count Act.pubStopped = 1 + W.count Act.pubStopped
    ∧ t[0]? = some Act.pubStarted
    ∧ (∀ j : ℕ, t[j]? = some Act.pubStopped →
        0 < j ∧ ∃ i : ℕ, i < j ∧ t[i]? = some Act.readEOF) := by
  have hcount := fun a => exec_count h a
  have hc1 : t.count Act.pubStarted = 1 := by
    rw [hcount, readerProg_count_pubStarted]
    rcases hW with rfl | rfl <;> rfl
  have hc2 : t.count Act.pubStopped = 1 + W.count Act.pubStopped := by
    rw [hcount, readerProg_count_pubStopped]
    rfl
  have hhead : t[0]? = some Act.pubStarted := by
    cases h with
    | startStep h₁ => simp
  refine ⟨hc1, hc2, hhead, ?_⟩
  intro j hj
  refine ⟨?_, exec_stopped_after_eof h (by decide)
    (pubStopped_not_mem_readerProg lines) ?_ j hj⟩
  · by_contra h0
    have hj0 : j = 0 := by omega
    subst hj0
    rw [hhead] at hj
    exact absurd hj (by decide)
  · unfold readerProg
    exact List.mem_append_right _ (List.mem_singleton.mpr rfl)

/-- Witness for C1 at a concrete complete execution with the shutdown
re-wait present. -/
theorem C1_command_lifecycle_events_witness :
    ([Act.pubStarted, Act.readLine "hi", Act.readEOF, Act.procExit,
        Act.pubStopped, Act.procExit, Act.pubStopped] : List Act).count
        Act.pubStarted = 1
    ∧ ([Act.pubStarted, Act.readLine "hi", Act.readEOF, Act.procExit,
        Act.pubStopped, Act.procExit, Act.pubStopped] : List Act).count
        Act.pubStopped = 1 + waiterProg.count Act.pubStopped
    ∧ ([Act.pubStarted, Act.readLine "hi", Act.readEOF, Act.procExit,
        Act.pubStopped, Act.procExit, Act.pubStopped] : List Act)[0]? =
        some Act.pubStarted
    ∧ (∀ j : ℕ,
        ([Act.pubStarted, Act.readLine "hi", Act.readEOF, Act.procExit,
          Act.pubStopped, Act.procExit, Act.pubStopped] : List Act)[j]? =
          some Act.pubStopped →
        0 < j ∧ ∃ i : ℕ, i < j ∧
          ([Act.pubStarted, Act.readLine "hi", Act.readEOF, Act.procExit,
            Act.pubStopped, Act.procExit, Act.pubStopped] : List Act)[i]? =
            some Act.readEOF) :=
  C1_command_lifecycle_events ["hi"] waiterProg
    [Act.pubStarted, Act.readLine "hi", Act.readEOF, Act.procExit,
      Act.pubStopped, Act.procExit, Act.pubStopped]
    (Or.inr rfl)
    (Exec.startStep (Exec.readerStep (Exec.readerStep
      (Exec.waiter1Step (fun _ => rfl) (Exec.waiter1Step (fun _ => rfl)
        (Exec.waiter2Step (fun _ => rfl) (Exec.waiter2Step (fun _ => rfl)
          Exec.done)))))))

end Brood
